import Mathlib

/-!
# Croco-Cartridge-CLI: verification of the protocol engine

Shallow embedding of the Croco cartridge command/response protocol from
`src/main.c`.  Bytes are modelled as `Nat` (always < 256 on real wires),
byte buffers as `List Nat`, files as a content function `Nat → Nat`
together with an explicit size, and the device as an oracle giving, for
each transaction in order, whether the bulk OUT write succeeds and what
byte string the bulk IN read yields.
-/

namespace Croco

/-- One device interaction as seen by `execute_command`: whether the bulk
OUT transfer (`send_command`) succeeds, and the result of the bulk IN
transfer (`read_response`): `none` for a hard transport error, `some bytes`
for a completed read (a timeout reads as `some []`). -/
structure DevStep where
  sendOk : Bool
  recv : Option (List Nat)
deriving DecidableEq

/-- Outcome of one transaction (`execute_command` in `main.c`).  The C
function collapses all failures to `-1` but prints distinct diagnostics;
the spec's error taxonomy names these cases, so the embedding keeps them
apart. -/
inductive ExecResult where
  | frameTooLarge
  | sendError
  | recvError
  | noResponse
  | echoMismatch (expected received : Nat)
  | ok (data : List Nat)
deriving DecidableEq

/-- Raw bus traffic caused by one transaction: the frame written to the
bulk OUT endpoint and the read attempt on the bulk IN endpoint. -/
inductive WireEvent where
  | sendEvt (frame : List Nat)
  | recvEvt
deriving DecidableEq

/-- `execute_command` from `main.c` (lines 204-252): build the frame
(1 opcode byte + payload, at most 65 bytes), send it, read up to 128
bytes, require at least the echo byte, check the echo, and return the
remaining data truncated to the caller's buffer capacity.  The second
component records the bus traffic the call performed. -/
def execute_command (command : Nat) (payload : List Nat) (capacity : Nat)
    (step : DevStep) : ExecResult × List WireEvent :=
  if 1 + payload.length > 65 then
    (.frameTooLarge, [])
  else
    let frame := command :: payload
    if step.sendOk then
      match step.recv with
      | none => (.recvError, [.sendEvt frame, .recvEvt])
      | some received =>
        let buffer := received.take 128
        if buffer.length < 1 then
          (.noResponse, [.sendEvt frame, .recvEvt])
        else if buffer.headD 0 ≠ command then
          (.echoMismatch command (buffer.headD 0), [.sendEvt frame, .recvEvt])
        else
          (.ok ((buffer.drop 1).take capacity), [.sendEvt frame, .recvEvt])
    else
      (.sendError, [.sendEvt frame])

/-- The result of a transaction whose frame fits, whose send succeeded and
whose read returned at least one byte: either the echo mismatches, or the
data after the echo byte is returned truncated to `capacity`. -/
theorem execute_command_fst_of_recv (command : Nat) (payload : List Nat)
    (capacity : Nat) (b : Nat) (bs : List Nat) (hp : payload.length ≤ 64) :
    (execute_command command payload capacity ⟨true, some (b :: bs)⟩).1 =
      if b ≠ command then .echoMismatch command b
      else .ok ((bs.take 127).take capacity) := by
  unfold execute_command
  rw [if_neg (by omega)]
  by_cases hb : b = command <;> simp [hb, List.take_succ_cons]

/-- Claim C4: for every opcode and every non-empty received response (the
frame having fit and the send having succeeded, i.e. the transaction
reached the read), `execute_command` returns `echoMismatch` exactly when
the first received byte differs from the opcode sent, and the error
carries the opcode as expected value and the first byte as received
value. -/
theorem execute_command_echo_mismatch_iff (command : Nat) (payload : List Nat)
    (capacity : Nat) (received : List Nat) (hp : payload.length ≤ 64)
    (hne : received ≠ []) (e r : Nat) :
    (execute_command command payload capacity ⟨true, some received⟩).1 =
        .echoMismatch e r ↔
      (e = command ∧ r = received.headD 0 ∧ received.headD 0 ≠ command) := by
  obtain ⟨b, bs, rfl⟩ : ∃ b bs, received = b :: bs := by
    cases received with
    | nil => exact absurd rfl hne
    | cons b bs => exact ⟨b, bs, rfl⟩
  rw [execute_command_fst_of_recv command payload capacity b bs hp]
  by_cases hb : b = command
  · subst hb
    simp
  · simp [hb]
    constructor
    · intro h
      exact ⟨h.1.symm, h.2.symm⟩
    · intro h
      exact ⟨h.1.symm, h.2.symm⟩

/-- Witness for C4: opcode 5, response starting with byte 7: the result is
exactly `echoMismatch 5 7`. -/
theorem execute_command_echo_mismatch_iff_witness :
    ([] : List Nat).length ≤ 64 ∧ ([7, 9] : List Nat) ≠ [] ∧
      ((execute_command 5 [] 1 ⟨true, some [7, 9]⟩).1 = .echoMismatch 5 7 ↔
        ((5 : Nat) = 5 ∧ (7 : Nat) = ([7, 9] : List Nat).headD 0 ∧
          ([7, 9] : List Nat).headD 0 ≠ 5)) :=
  ⟨by decide, by decide,
    execute_command_echo_mismatch_iff 5 [] 1 [7, 9] (by decide) (by decide) 5 7⟩

/-- Claim C5: a payload longer than 64 bytes is rejected as frame-too-large
with no bus traffic at all: no send and no receive happen. -/
theorem execute_command_frame_too_large (command : Nat) (payload : List Nat)
    (capacity : Nat) (step : DevStep) (h : payload.length > 64) :
    execute_command command payload capacity step = (.frameTooLarge, []) := by
  unfold execute_command
  rw [if_pos (by omega)]

/-- Witness for C5: a 65-byte payload is rejected before any I/O. -/
theorem execute_command_frame_too_large_witness :
    (List.replicate 65 (0 : Nat)).length > 64 ∧
      execute_command 3 (List.replicate 65 0) 1 ⟨true, some [3, 0]⟩ =
        (.frameTooLarge, []) :=
  ⟨by decide,
    execute_command_frame_too_large 3 (List.replicate 65 0) 1
      ⟨true, some [3, 0]⟩ (by decide)⟩

/-! ## Catalog listing (`list_games`, opcodes 0x01 and 0x04) -/

/-- Decoded catalog entry: the `RomInfo` fields that `list_games` extracts
from a rom-info response (`main.c` lines 21-27 and 296-305). -/
structure RomInfo where
  name : List Nat
  num_ram_banks : Nat
  mbc : Nat
  num_rom_banks : Nat
deriving DecidableEq

/-- Entry decoding in `list_games` (lines 296-305) for a response of
`info_bytes = data.length` (at least 20) bytes: bytes 0-16 the name
(NUL-clamped at index 17 for display), byte 17 the ram bank count, byte 18
the MBC type when more than 18 bytes arrived (0xFF otherwise), bytes 19-20
the rom bank count (byte 20 high, byte 19 low) when more than 20 bytes
arrived (0 otherwise). -/
def decodeRomInfo (data : List Nat) : RomInfo where
  name := data.take 17
  num_ram_banks := data.getD 17 0
  mbc := if 18 < data.length then data.getD 18 0 else 0xFF
  num_rom_banks :=
    if 20 < data.length then (data.getD 20 0) <<< 8 ||| data.getD 19 0 else 0

/-- The per-id loop of `list_games` (lines 285-317): one rom-info
transaction (opcode 0x04, payload the rom id, capacity 25) per id; a
response shorter than 20 bytes, or a failed transaction, skips the entry
and continues.  The device oracle `dev` is indexed by transaction number;
the info transaction for id `i` is call `i + 1` (call 0 was the
utilization query). -/
def rom_info_calls (dev : Nat → DevStep) : List Nat → List (Nat × RomInfo)
  | [] => []
  | i :: rest =>
    match (execute_command 4 [i] 25 (dev (i + 1))).1 with
    | .ok d =>
      if d.length < 20 then rom_info_calls dev rest
      else (i, decodeRomInfo d) :: rom_info_calls dev rest
    | _ => rom_info_calls dev rest

/-- What `list_games` reports on success (storage header plus the decoded
entries); the C function prints these and returns 0. -/
structure GamesList where
  num_roms : Nat
  used_banks : Nat
  max_banks : Nat
  entries : List (Nat × RomInfo)
deriving DecidableEq

/-- `list_games` (lines 254-321): one utilization transaction (opcode
0x01, capacity 10) requiring at least 5 data bytes, decoding rom count
(byte 0) and the used-bank counter (bytes 1-2, byte 2 high in the C
expression, divided by 256), then one rom-info transaction per id. -/
def list_games (dev : Nat → DevStep) : Option GamesList :=
  match (execute_command 1 [] 10 (dev 0)).1 with
  | .ok data =>
    if data.length < 5 then none
    else
      some { num_roms := data.getD 0 0
             used_banks := ((data.getD 2 0) <<< 8 ||| data.getD 1 0) / 256
             max_banks := 888
             entries := rom_info_calls dev (List.range (data.getD 0 0)) }
  | _ => none

/-- Bridge between the C expression `(hi << 8) | lo` and its arithmetic
value: for `lo` a byte the bitwise or is plain addition. -/
theorem lor_shift8 (hi lo : Nat) (h : lo < 256) :
    hi <<< 8 ||| lo = 256 * hi + lo := by
  have h256 : (2 : Nat) ^ 8 = 256 := by norm_num
  have h2 : lo < 2 ^ 8 := by omega
  rw [Nat.shiftLeft_eq, Nat.mul_comm, ← Nat.mul_add_lt_is_or h2 hi]

/-- A concrete 20-byte rom-info response (name ZELDA, 1 ram bank, MBC
0x1B, final byte 0). -/
def c1resp : List Nat :=
  [90, 69, 76, 68, 65, 0, 0, 0, 0, 0, 0, 0, 0, 0, 0, 0, 0, 1, 27, 0]

/-- Counterexample to C1 as stated: on a rom-info response of exactly 20
bytes the decoded rom bank count is 0, but the MBC field is byte 18 of
the response (here 0x1B), not 0xFF: the `>18` length gate passes at 20
bytes.  The same entry is what the full catalog listing decodes. -/
theorem c1_counterexample :
    c1resp.length = 20 ∧
      (decodeRomInfo c1resp).mbc = 0x1B ∧
      ¬((decodeRomInfo c1resp).num_rom_banks = 0 ∧
        (decodeRomInfo c1resp).mbc = 0xFF) ∧
      Option.map GamesList.entries (list_games (fun k =>
          if k = 0 then ⟨true, some [1, 1, 0, 0, 0, 0]⟩
          else ⟨true, some (4 :: c1resp)⟩)) =
        some [(0, decodeRomInfo c1resp)] := by
  decide

/-- Claim C1 (amended): for a rom-info response of exactly 20 bytes the
decoded rom bank count is 0 (the `>20` gate fails), and the MBC field is
byte 18 of the response; the 0xFF default applies only to shorter
(≤ 18 byte) responses. -/
theorem decodeRomInfo_at_20 (data : List Nat) (h : data.length = 20) :
    (decodeRomInfo data).num_rom_banks = 0 ∧
      (decodeRomInfo data).mbc = data.getD 18 0 := by
  unfold decodeRomInfo
  constructor
  · simp [h]
  · simp [h]

/-- Witness for the amended C1 at the concrete 20-byte response. -/
theorem decodeRomInfo_at_20_witness :
    c1resp.length = 20 ∧
      ((decodeRomInfo c1resp).num_rom_banks = 0 ∧
        (decodeRomInfo c1resp).mbc = c1resp.getD 18 0) :=
  ⟨by decide, decodeRomInfo_at_20 c1resp (by decide)⟩

/-- Claim C7: a utilization response of at least 5 bytes reports
`used_banks` as the little-endian 16-bit value of data bytes 1-2 divided
by 256, with the constant maximum of 888 banks; raw value 512 yields 2. -/
theorem list_games_utilization (dev : Nat → DevStep) (data : List Nat)
    (h1 : (execute_command 1 [] 10 (dev 0)).1 = .ok data)
    (h2 : 5 ≤ data.length) (h3 : data.getD 1 0 < 256) :
    ∃ gl, list_games dev = some gl ∧
      gl.used_banks = (data.getD 1 0 + 256 * data.getD 2 0) / 256 ∧
      gl.max_banks = 888 ∧
      (data.getD 1 0 + 256 * data.getD 2 0 = 512 → gl.used_banks = 2) := by
  have hn : ¬data.length < 5 := by omega
  have hgl : list_games dev = some
      { num_roms := data.getD 0 0
        used_banks := ((data.getD 2 0) <<< 8 ||| data.getD 1 0) / 256
        max_banks := 888
        entries := rom_info_calls dev (List.range (data.getD 0 0)) } := by
    simp only [list_games, h1]
    rw [if_neg hn]
  refine ⟨_, hgl, ?_, rfl, ?_⟩
  · show ((data.getD 2 0) <<< 8 ||| data.getD 1 0) / 256 =
      (data.getD 1 0 + 256 * data.getD 2 0) / 256
    rw [lor_shift8 _ _ h3, Nat.add_comm]
  · intro h512
    show ((data.getD 2 0) <<< 8 ||| data.getD 1 0) / 256 = 2
    rw [lor_shift8 _ _ h3]
    omega

/-- Witness for C7: end-to-end scenario A, utilization data
`[2, 0, 2, 0, 0]` (2 roms, raw used-bank value 512). -/
theorem list_games_utilization_witness :
    (execute_command 1 [] 10
        ((fun _ => ⟨true, some [1, 2, 0, 2, 0, 0]⟩ : Nat → DevStep) 0)).1 =
      .ok [2, 0, 2, 0, 0] ∧
    5 ≤ ([2, 0, 2, 0, 0] : List Nat).length ∧
    ([2, 0, 2, 0, 0] : List Nat).getD 1 0 < 256 ∧
    (∃ gl, list_games (fun _ => ⟨true, some [1, 2, 0, 2, 0, 0]⟩) = some gl ∧
      gl.used_banks =
        (([2, 0, 2, 0, 0] : List Nat).getD 1 0 +
          256 * ([2, 0, 2, 0, 0] : List Nat).getD 2 0) / 256 ∧
      gl.max_banks = 888 ∧
      (([2, 0, 2, 0, 0] : List Nat).getD 1 0 +
          256 * ([2, 0, 2, 0, 0] : List Nat).getD 2 0 = 512 →
        gl.used_banks = 2)) :=
  ⟨by decide, by decide, by decide,
    list_games_utilization (fun _ => ⟨true, some [1, 2, 0, 2, 0, 0]⟩)
      [2, 0, 2, 0, 0] (by decide) (by decide) (by decide)⟩

/-- Spec-side view of one enumeration step: the entry id `i` produces, if
its rom-info transaction succeeds with at least 20 data bytes, and nothing
otherwise. -/
def entry_of (dev : Nat → DevStep) (i : Nat) : Option (Nat × RomInfo) :=
  match (execute_command 4 [i] 25 (dev (i + 1))).1 with
  | .ok d => if d.length < 20 then none else some (i, decodeRomInfo d)
  | _ => none

/-- The enumeration loop is exactly a filterMap of the per-id decode: a
skipped id removes only its own entry. -/
theorem rom_info_calls_eq_filterMap (dev : Nat → DevStep) (l : List Nat) :
    rom_info_calls dev l = l.filterMap (entry_of dev) := by
  induction l with
  | nil => rfl
  | cons i rest ih =>
    rw [List.filterMap_cons]
    cases h : (execute_command 4 [i] 25 (dev (i + 1))).1 with
    | ok d =>
      by_cases hlen : d.length < 20
      · simp only [rom_info_calls, entry_of, h, if_pos hlen, ih]
      · simp only [rom_info_calls, entry_of, h, if_neg hlen, ih]
    | frameTooLarge => simp only [rom_info_calls, entry_of, h, ih]
    | sendError => simp only [rom_info_calls, entry_of, h, ih]
    | recvError => simp only [rom_info_calls, entry_of, h, ih]
    | noResponse => simp only [rom_info_calls, entry_of, h, ih]
    | echoMismatch e r => simp only [rom_info_calls, entry_of, h, ih]

/-- A produced entry is tagged with the id it was decoded for. -/
theorem entry_of_fst (dev : Nat → DevStep) (i : Nat) (e : Nat × RomInfo)
    (h : entry_of dev i = some e) : e.1 = i := by
  cases hx : (execute_command 4 [i] 25 (dev (i + 1))).1 with
  | ok d =>
    simp only [entry_of, hx] at h
    by_cases hlen : d.length < 20
    · rw [if_pos hlen] at h
      simp at h
    · rw [if_neg hlen] at h
      injection h with h2
      rw [← h2]
  | frameTooLarge => simp only [entry_of, hx] at h; exact Option.noConfusion h
  | sendError => simp only [entry_of, hx] at h; exact Option.noConfusion h
  | recvError => simp only [entry_of, hx] at h; exact Option.noConfusion h
  | noResponse => simp only [entry_of, hx] at h; exact Option.noConfusion h
  | echoMismatch e r => simp only [entry_of, hx] at h; exact Option.noConfusion h

/-- An id whose rom-info transaction fails or yields fewer than 20 data
bytes produces no entry. -/
theorem entry_of_eq_none (dev : Nat → DevStep) (j : Nat)
    (hshort : ∀ d, (execute_command 4 [j] 25 (dev (j + 1))).1 = .ok d →
      d.length < 20) :
    entry_of dev j = none := by
  cases hx : (execute_command 4 [j] 25 (dev (j + 1))).1 with
  | ok d => simp only [entry_of, hx]; rw [if_pos (hshort d hx)]
  | frameTooLarge => simp only [entry_of, hx]
  | sendError => simp only [entry_of, hx]
  | recvError => simp only [entry_of, hx]
  | noResponse => simp only [entry_of, hx]
  | echoMismatch e r => simp only [entry_of, hx]

/-- Claim C8: when the rom-info response for id `j` fails or is shorter
than 20 bytes, the catalog fetch still succeeds, its entry list is the
filterMap of the per-id decode over all ids (so only `j`'s entry is
missing), every id with a well-formed (≥ 20 byte) response still appears,
and no entry for `j` is produced. -/
theorem list_games_skips_short_entry (dev : Nat → DevStep) (data : List Nat)
    (j : Nat)
    (h1 : (execute_command 1 [] 10 (dev 0)).1 = .ok data)
    (h2 : 5 ≤ data.length)
    (hj : j < data.getD 0 0)
    (hshort : ∀ d, (execute_command 4 [j] 25 (dev (j + 1))).1 = .ok d →
      d.length < 20) :
    ∃ gl, list_games dev = some gl ∧
      gl.entries = (List.range (data.getD 0 0)).filterMap (entry_of dev) ∧
      (∀ i, i < data.getD 0 0 →
        ∀ d, (execute_command 4 [i] 25 (dev (i + 1))).1 = .ok d →
          20 ≤ d.length → (i, decodeRomInfo d) ∈ gl.entries) ∧
      (∀ e ∈ gl.entries, e.1 ≠ j) := by
  have hn : ¬data.length < 5 := by omega
  have hgl : list_games dev = some
      { num_roms := data.getD 0 0
        used_banks := ((data.getD 2 0) <<< 8 ||| data.getD 1 0) / 256
        max_banks := 888
        entries := rom_info_calls dev (List.range (data.getD 0 0)) } := by
    simp only [list_games, h1]
    rw [if_neg hn]
  refine ⟨_, hgl, rom_info_calls_eq_filterMap dev _, ?_, ?_⟩
  · intro i hi d hd hlen
    show (i, decodeRomInfo d) ∈ rom_info_calls dev (List.range (data.getD 0 0))
    rw [rom_info_calls_eq_filterMap]
    refine List.mem_filterMap.mpr ⟨i, List.mem_range.mpr hi, ?_⟩
    simp only [entry_of, hd]
    rw [if_neg (by omega)]
  · intro e he
    have he2 : e ∈ (List.range (data.getD 0 0)).filterMap (entry_of dev) := by
      rw [← rom_info_calls_eq_filterMap]
      exact he
    obtain ⟨a, _, ha⟩ := List.mem_filterMap.mp he2
    have hfst := entry_of_fst dev a e ha
    intro hej
    have haj : a = j := by rw [← hfst, hej]
    rw [haj, entry_of_eq_none dev j hshort] at ha
    exact Option.noConfusion ha

/-- Device oracle for the C8 witness: 2 roms; id 0's rom-info response has
only 1 data byte (short), id 1's has 20. -/
def c8dev : Nat → DevStep := fun k =>
  if k = 0 then ⟨true, some [1, 2, 0, 2, 0, 0]⟩
  else if k = 1 then ⟨true, some [4, 9]⟩
  else ⟨true, some (4 :: List.replicate 20 7)⟩

/-- Witness for C8: with id 0 short and id 1 well-formed, the catalog
fetch succeeds and still lists id 1. -/
theorem list_games_skips_short_entry_witness :
    (execute_command 1 [] 10 (c8dev 0)).1 = .ok [2, 0, 2, 0, 0] ∧
    5 ≤ ([2, 0, 2, 0, 0] : List Nat).length ∧
    0 < ([2, 0, 2, 0, 0] : List Nat).getD 0 0 ∧
    (∃ gl, list_games c8dev = some gl ∧
      gl.entries =
        (List.range (([2, 0, 2, 0, 0] : List Nat).getD 0 0)).filterMap
          (entry_of c8dev) ∧
      (∀ i, i < ([2, 0, 2, 0, 0] : List Nat).getD 0 0 →
        ∀ d, (execute_command 4 [i] 25 (c8dev (i + 1))).1 = .ok d →
          20 ≤ d.length → (i, decodeRomInfo d) ∈ gl.entries) ∧
      (∀ e ∈ gl.entries, e.1 ≠ 0)) :=
  ⟨by decide, by decide, by decide,
    list_games_skips_short_entry c8dev [2, 0, 2, 0, 0] 0 (by decide) (by decide)
      (by decide)
      (by
        intro d hd
        rw [show (execute_command 4 [0] 25 (c8dev 1)).1 = .ok [9] from by decide]
          at hd
        injection hd with h2
        rw [← h2]
        decide)⟩

/-! ## Chunked bank transfers -/

/-- The nested iteration order shared by all chunked flows: banks
`0..banks` ascending and, within each bank, chunks `0..cpb` ascending
(the two nested `for` loops of the C transfer functions). -/
def addr_list (banks cpb : Nat) : List (Nat × Nat) :=
  (List.range banks).flatMap (fun b => (List.range cpb).map (fun c => (b, c)))

/-- The 32 data bytes of one chunk, for a file with contents `f` and size
`S`, starting at byte offset `off`: file bytes while in range, zero past
end-of-file (the chunk buffer is zero-initialised and `memcpy` copies
`min (S - off) 32` bytes). -/
def chunk_data (f : Nat → Nat) (S off : Nat) : List Nat :=
  (List.range 32).map (fun i => if off + i < S then f (off + i) else 0)

/-- Big-endian 16-bit encoding (`htons`) of a chunk-header field. -/
def be16 (n : Nat) : List Nat := [n / 256 % 256, n % 256]

/-- Payload of one ROM-upload chunk transaction (opcode 0x03, `main.c`
lines 429-441): big-endian bank and chunk indices, then the 32 data bytes
at file offset `b * 16384 + c * 32`. -/
def rom_chunk_payload (f : Nat → Nat) (S b c : Nat) : List Nat :=
  be16 b ++ be16 c ++ chunk_data f S (b * 16384 + c * 32)

/-- Payload of one save-upload chunk transaction (opcode 0x09, lines
588-598): big-endian bank and chunk indices, then the 32 bytes the
sequential `fread` yields at this point, which are the file bytes at
offset `b * 8192 + c * 32` (zero once past end-of-file). -/
def save_chunk_payload (f : Nat → Nat) (S b c : Nat) : List Nat :=
  be16 b ++ be16 c ++ chunk_data f S (b * 8192 + c * 32)

/-- The chunk-sending loop shared by ROM upload (opcode 0x03) and save
upload (opcode 0x09): for each (bank, chunk) address in order, one
transaction with 1-byte ack capacity; a failed transaction or a non-zero
ack aborts immediately.  `resp` threads the C `resp` variable (which an
ack carrying no byte leaves unchanged); `k` numbers the device
transactions.  Returns overall success and the issued transactions as
(opcode, payload) pairs. -/
def send_chunks (op : Nat) (mk : Nat → Nat → List Nat) (dev : Nat → DevStep) :
    Nat → Nat → List (Nat × Nat) → Bool × List (Nat × List Nat)
  | _, _, [] => (true, [])
  | k, resp, (b, c) :: rest =>
    match (execute_command op (mk b c) 1 (dev k)).1 with
    | .ok d =>
      if d.headD resp ≠ 0 then (false, [(op, mk b c)])
      else
        let r := send_chunks op mk dev (k + 1) (d.headD resp) rest
        (r.1, (op, mk b c) :: r.2)
    | _ => (false, [(op, mk b c)])

/-- Handshake payload of a ROM upload (opcode 0x02, lines 401-406): the
big-endian total bank count, 17 bytes of name (`strncpy`: truncated at 17
bytes, zero-padded if shorter), and the constant big-endian speed-switch
sentinel 0xFFFF. -/
def rom_handshake_payload (total_banks : Nat) (name : List Nat) : List Nat :=
  be16 total_banks ++ (name.take 17 ++ List.replicate (17 - name.length) 0) ++
    [255, 255]

/-- The total bank count a ROM upload computes (line 394): the ceiling of
file size over 16384, truncated by the cast to `uint16_t`. -/
def rom_total_banks (S : Nat) : Nat := ((S + 16384 - 1) / 16384) % 65536

/-- `upload_rom` (lines 379-457) over a file with contents `f` and size
`S`: a handshake with opcode 0x02 (1-byte status; a failed transaction or
non-zero status rejects the upload; `r0` is the arbitrary initial value
of the C `resp` variable, read only if the ack carries no byte), then all
chunks in nested bank/chunk order.  Returns success plus the issued
transactions. -/
def upload_rom (f : Nat → Nat) (S : Nat) (name : List Nat)
    (dev : Nat → DevStep) (r0 : Nat) : Bool × List (Nat × List Nat) :=
  let hs := rom_handshake_payload (rom_total_banks S) name
  match (execute_command 2 hs 1 (dev 0)).1 with
  | .ok d =>
    if d.headD r0 ≠ 0 then (false, [(2, hs)])
    else
      let r := send_chunks 3 (rom_chunk_payload f S) dev 1 (d.headD r0)
        (addr_list (rom_total_banks S) 512)
      (r.1, (2, hs) :: r.2)
  | _ => (false, [(2, hs)])

/-- Claim C6: if the ROM-upload handshake transaction fails, or succeeds
with a non-zero status byte, the upload aborts with the opcode 0x02
handshake as its only issued transaction; in particular no opcode 0x03
chunk transaction is ever issued. -/
theorem upload_rom_handshake_reject (f : Nat → Nat) (S : Nat)
    (name : List Nat) (dev : Nat → DevStep) (r0 : Nat)
    (hrej : ∀ d, (execute_command 2
        (rom_handshake_payload (rom_total_banks S) name) 1 (dev 0)).1 =
          .ok d → d.headD r0 ≠ 0) :
    upload_rom f S name dev r0 =
      (false, [(2, rom_handshake_payload (rom_total_banks S) name)]) ∧
    ∀ t ∈ (upload_rom f S name dev r0).2, t.1 ≠ 3 := by
  have hmain : upload_rom f S name dev r0 =
      (false, [(2, rom_handshake_payload (rom_total_banks S) name)]) := by
    cases hx : (execute_command 2
        (rom_handshake_payload (rom_total_banks S) name) 1 (dev 0)).1 with
    | ok d =>
      simp only [upload_rom, hx]
      rw [if_pos (hrej d hx)]
    | frameTooLarge => simp only [upload_rom, hx]
    | sendError => simp only [upload_rom, hx]
    | recvError => simp only [upload_rom, hx]
    | noResponse => simp only [upload_rom, hx]
    | echoMismatch e r => simp only [upload_rom, hx]
  refine ⟨hmain, ?_⟩
  rw [hmain]
  intro t ht
  rw [List.mem_singleton.mp ht]
  show (2 : Nat) ≠ 3
  omega

/-- Witness for C6: a handshake answered with status byte 1 yields a
rejected upload whose trace is the handshake alone. -/
theorem upload_rom_handshake_reject_witness :
    (∀ d, (execute_command 2
        (rom_handshake_payload (rom_total_banks 100) [65]) 1
        ((fun _ => ⟨true, some [2, 1]⟩ : Nat → DevStep) 0)).1 = .ok d →
      d.headD 0 ≠ 0) ∧
    (upload_rom (fun _ => 7) 100 [65] (fun _ => ⟨true, some [2, 1]⟩) 0 =
        (false, [(2, rom_handshake_payload (rom_total_banks 100) [65])]) ∧
      ∀ t ∈ (upload_rom (fun _ => 7) 100 [65]
        (fun _ => ⟨true, some [2, 1]⟩) 0).2, t.1 ≠ 3) := by
  have hrej : ∀ d, (execute_command 2
      (rom_handshake_payload (rom_total_banks 100) [65]) 1
      ((fun _ => ⟨true, some [2, 1]⟩ : Nat → DevStep) 0)).1 = .ok d →
      d.headD 0 ≠ 0 := by
    intro d hd
    rw [show (execute_command 2
        (rom_handshake_payload (rom_total_banks 100) [65]) 1
        ((fun _ => ⟨true, some [2, 1]⟩ : Nat → DevStep) 0)).1 = .ok [1]
      from by decide] at hd
    injection hd with h2
    rw [← h2]
    decide
  exact ⟨hrej,
    upload_rom_handshake_reject (fun _ => 7) 100 [65]
      (fun _ => ⟨true, some [2, 1]⟩) 0 hrej⟩

/-! ## Transfer-order bookkeeping -/

/-- The nested iteration order enumerates exactly the global chunk indices
`0..banks*cpb`, each split into its bank and in-bank chunk number. -/
theorem addr_list_eq_range (banks cpb : Nat) (h : 0 < cpb) :
    addr_list banks cpb =
      (List.range (banks * cpb)).map (fun k => (k / cpb, k % cpb)) := by
  induction banks with
  | zero => simp [addr_list]
  | succ n ih =>
    rw [addr_list, List.range_succ, List.flatMap_append, ← addr_list, ih,
      Nat.succ_mul, List.range_add, List.map_append, List.map_map]
    congr 1
    simp only [List.flatMap_cons, List.flatMap_nil, List.append_nil]
    apply List.map_congr_left
    intro c hc
    have hc2 : c < cpb := List.mem_range.mp hc
    have hdiv : (n * cpb + c) / cpb = n := by
      rw [Nat.add_comm, Nat.add_mul_div_right c n h, Nat.div_eq_of_lt hc2]
      omega
    have hmod : (n * cpb + c) % cpb = c := by
      rw [Nat.mul_comm, Nat.mul_add_mod, Nat.mod_eq_of_lt hc2]
    simp [Function.comp, hdiv, hmod]

theorem addr_list_length (banks cpb : Nat) (h : 0 < cpb) :
    (addr_list banks cpb).length = banks * cpb := by
  rw [addr_list_eq_range banks cpb h]
  simp

/-- `List.getD` through an append, inside the left part. -/
theorem getD_append_left' (l1 l2 : List Nat) (o : Nat) (h : o < l1.length) :
    (l1 ++ l2).getD o 0 = l1.getD o 0 := by
  rw [List.getD_eq_getElem?_getD, List.getD_eq_getElem?_getD,
    List.getElem?_append_left h]

/-- `List.getD` through an append, inside the right part. -/
theorem getD_append_right' (l1 l2 : List Nat) (o : Nat) (h : l1.length ≤ o) :
    (l1 ++ l2).getD o 0 = l2.getD (o - l1.length) 0 := by
  rw [List.getD_eq_getElem?_getD, List.getD_eq_getElem?_getD,
    List.getElem?_append_right h]

/-- Length of the concatenation of `m` fixed-size 32-byte blocks. -/
theorem flatten_map_range_length (m : Nat) (g : Nat → List Nat)
    (hlen : ∀ k, (g k).length = 32) :
    (((List.range m).map g).flatten).length = m * 32 := by
  induction m with
  | zero => rfl
  | succ n ih =>
    rw [List.range_succ, List.map_append, List.flatten_append]
    simp only [List.map_cons, List.map_nil, List.flatten_cons,
      List.flatten_nil, List.append_nil, List.length_append, ih, hlen]
    omega

/-- Byte `o` of the concatenation of `m` fixed-size 32-byte blocks lives
in block `o / 32` at in-block offset `o % 32`. -/
theorem flatten_map_range_getD (g : Nat → List Nat)
    (hlen : ∀ k, (g k).length = 32) :
    ∀ m o : Nat, o < m * 32 →
      (((List.range m).map g).flatten).getD o 0 =
        (g (o / 32)).getD (o % 32) 0 := by
  intro m
  induction m with
  | zero => intro o ho; omega
  | succ n ih =>
    intro o ho
    rw [List.range_succ, List.map_append, List.flatten_append]
    have hlen_flat : (((List.range n).map g).flatten).length = n * 32 :=
      flatten_map_range_length n g hlen
    by_cases hlt : o < n * 32
    · rw [getD_append_left' _ _ o (by omega)]
      exact ih o hlt
    · rw [getD_append_right' _ _ o (by omega), hlen_flat]
      simp only [List.map_cons, List.map_nil, List.flatten_cons,
        List.flatten_nil, List.append_nil]
      have h1 : o / 32 = n := by omega
      have h2 : o % 32 = o - n * 32 := by omega
      rw [h1, h2]

theorem chunk_data_length (f : Nat → Nat) (S off : Nat) :
    (chunk_data f S off).length = 32 := by
  simp [chunk_data]

theorem chunk_data_getD (f : Nat → Nat) (S off i : Nat) (h : i < 32) :
    (chunk_data f S off).getD i 0 = if off + i < S then f (off + i) else 0 := by
  have hb : i < ((List.range 32).map
      (fun i => if off + i < S then f (off + i) else 0)).length := by
    simp
    omega
  rw [chunk_data, List.getD_eq_getElem?_getD, List.getElem?_eq_getElem hb]
  simp

theorem rom_chunk_payload_drop4 (f : Nat → Nat) (S b c : Nat) :
    (rom_chunk_payload f S b c).drop 4 = chunk_data f S (b * 16384 + c * 32) := by
  simp [rom_chunk_payload, be16]

theorem save_chunk_payload_drop4 (f : Nat → Nat) (S b c : Nat) :
    (save_chunk_payload f S b c).drop 4 = chunk_data f S (b * 8192 + c * 32) := by
  simp [save_chunk_payload, be16]

/-- When the chunk-sending loop succeeds it has issued exactly one
transaction per address, in order, with the loop's opcode and payload. -/
theorem send_chunks_ok_trace (op : Nat) (mk : Nat → Nat → List Nat)
    (dev : Nat → DevStep) :
    ∀ (addrs : List (Nat × Nat)) (k resp : Nat),
      (send_chunks op mk dev k resp addrs).1 = true →
      (send_chunks op mk dev k resp addrs).2 =
        addrs.map (fun bc => (op, mk bc.1 bc.2)) := by
  intro addrs
  induction addrs with
  | nil => intro k resp _; rfl
  | cons bc rest ih =>
    intro k resp hok
    obtain ⟨b, c⟩ := bc
    cases hx : (execute_command op (mk b c) 1 (dev k)).1 with
    | ok d =>
      by_cases hz : d.headD resp ≠ 0
      · rw [show send_chunks op mk dev k resp ((b, c) :: rest) =
            (false, [(op, mk b c)]) from by
          simp only [send_chunks, hx, if_pos hz]] at hok
        simp at hok
      · have hz0 : d.headD resp = 0 := by omega
        rw [show send_chunks op mk dev k resp ((b, c) :: rest) =
            ((send_chunks op mk dev (k + 1) (d.headD resp) rest).1,
              (op, mk b c) ::
                (send_chunks op mk dev (k + 1) (d.headD resp) rest).2) from by
          simp only [send_chunks, hx, if_neg hz]] at hok ⊢
        simp only [List.map_cons]
        rw [ih (k + 1) (d.headD resp) hok]
    | frameTooLarge =>
      rw [show send_chunks op mk dev k resp ((b, c) :: rest) =
          (false, [(op, mk b c)]) from by simp only [send_chunks, hx]] at hok
      simp at hok
    | sendError =>
      rw [show send_chunks op mk dev k resp ((b, c) :: rest) =
          (false, [(op, mk b c)]) from by simp only [send_chunks, hx]] at hok
      simp at hok
    | recvError =>
      rw [show send_chunks op mk dev k resp ((b, c) :: rest) =
          (false, [(op, mk b c)]) from by simp only [send_chunks, hx]] at hok
      simp at hok
    | noResponse =>
      rw [show send_chunks op mk dev k resp ((b, c) :: rest) =
          (false, [(op, mk b c)]) from by simp only [send_chunks, hx]] at hok
      simp at hok
    | echoMismatch e r =>
      rw [show send_chunks op mk dev k resp ((b, c) :: rest) =
          (false, [(op, mk b c)]) from by simp only [send_chunks, hx]] at hok
      simp at hok

/-- The transactions of `txs` carrying opcode `op` (the chunk stream of a
transfer trace). -/
def chunk_txs (txs : List (Nat × List Nat)) (op : Nat) : List (Nat × List Nat) :=
  txs.filter (fun t => t.1 == op)

/-- The data bytes carried by a list of chunk transactions: everything
after each 4-byte (bank, chunk) header, concatenated in order. -/
def tx_data (txs : List (Nat × List Nat)) : List Nat :=
  (txs.map (fun t => t.2.drop 4)).flatten

/-- A successful ROM upload issued the handshake followed by one opcode
0x03 chunk transaction per (bank, chunk) address in nested order. -/
theorem upload_rom_ok_trace (f : Nat → Nat) (S : Nat) (name : List Nat)
    (dev : Nat → DevStep) (r0 : Nat)
    (hok : (upload_rom f S name dev r0).1 = true) :
    (upload_rom f S name dev r0).2 =
      (2, rom_handshake_payload (rom_total_banks S) name) ::
        (addr_list (rom_total_banks S) 512).map
          (fun bc => (3, rom_chunk_payload f S bc.1 bc.2)) := by
  cases hx : (execute_command 2
      (rom_handshake_payload (rom_total_banks S) name) 1 (dev 0)).1 with
  | ok d =>
    by_cases hz : d.headD r0 ≠ 0
    · rw [show upload_rom f S name dev r0 = (false,
          [(2, rom_handshake_payload (rom_total_banks S) name)]) from by
        simp only [upload_rom, hx, if_pos hz]] at hok
      simp at hok
    · have hred : upload_rom f S name dev r0 =
          ((send_chunks 3 (rom_chunk_payload f S) dev 1 (d.headD r0)
              (addr_list (rom_total_banks S) 512)).1,
            (2, rom_handshake_payload (rom_total_banks S) name) ::
              (send_chunks 3 (rom_chunk_payload f S) dev 1 (d.headD r0)
                (addr_list (rom_total_banks S) 512)).2) := by
        simp only [upload_rom, hx, if_neg hz]
      rw [hred] at hok ⊢
      rw [send_chunks_ok_trace 3 (rom_chunk_payload f S) dev
        (addr_list (rom_total_banks S) 512) 1 (d.headD r0) hok]
  | frameTooLarge =>
    rw [show upload_rom f S name dev r0 = (false,
        [(2, rom_handshake_payload (rom_total_banks S) name)]) from by
      simp only [upload_rom, hx]] at hok
    simp at hok
  | sendError =>
    rw [show upload_rom f S name dev r0 = (false,
        [(2, rom_handshake_payload (rom_total_banks S) name)]) from by
      simp only [upload_rom, hx]] at hok
    simp at hok
  | recvError =>
    rw [show upload_rom f S name dev r0 = (false,
        [(2, rom_handshake_payload (rom_total_banks S) name)]) from by
      simp only [upload_rom, hx]] at hok
    simp at hok
  | noResponse =>
    rw [show upload_rom f S name dev r0 = (false,
        [(2, rom_handshake_payload (rom_total_banks S) name)]) from by
      simp only [upload_rom, hx]] at hok
    simp at hok
  | echoMismatch e r =>
    rw [show upload_rom f S name dev r0 = (false,
        [(2, rom_handshake_payload (rom_total_banks S) name)]) from by
      simp only [upload_rom, hx]] at hok
    simp at hok

/-- Claim C2 (amended: the bank count must fit the `uint16_t total_banks`
field): a successful ROM upload of a size-`S` file with 16384-byte banks
issues exactly `ceil (S / 16384)` banks of 512 chunk transactions, whose
concatenated data bytes reproduce the file for offsets below `S` and are
zero up to `banks * 16384`; in particular a 20000-byte file yields 2
banks with the second bank's bytes 3616..16383 all zero. -/
theorem upload_rom_round_trip (f : Nat → Nat) (S : Nat) (name : List Nat)
    (dev : Nat → DevStep) (r0 : Nat)
    (hfit : (S + 16384 - 1) / 16384 < 65536)
    (hok : (upload_rom f S name dev r0).1 = true) :
    rom_total_banks S = (S + 16384 - 1) / 16384 ∧
    (upload_rom f S name dev r0).2 =
      (2, rom_handshake_payload (rom_total_banks S) name) ::
        (addr_list (rom_total_banks S) 512).map
          (fun bc => (3, rom_chunk_payload f S bc.1 bc.2)) ∧
    (tx_data (chunk_txs (upload_rom f S name dev r0).2 3)).length =
      ((S + 16384 - 1) / 16384) * 16384 ∧
    (∀ o, o < ((S + 16384 - 1) / 16384) * 16384 →
      (tx_data (chunk_txs (upload_rom f S name dev r0).2 3)).getD o 0 =
        if o < S then f o else 0) ∧
    (S = 20000 →
      (S + 16384 - 1) / 16384 = 2 ∧
      ∀ o, 3616 ≤ o → o < 16384 →
        (tx_data (chunk_txs (upload_rom f S name dev r0).2 3)).getD
          (16384 + o) 0 = 0) := by
  have hB : rom_total_banks S = (S + 16384 - 1) / 16384 := Nat.mod_eq_of_lt hfit
  have htr := upload_rom_ok_trace f S name dev r0 hok
  have hct : chunk_txs (upload_rom f S name dev r0).2 3 =
      (addr_list (rom_total_banks S) 512).map
        (fun bc => (3, rom_chunk_payload f S bc.1 bc.2)) := by
    rw [htr, chunk_txs, List.filter_cons]
    have hcond : ((((2 : Nat),
        rom_handshake_payload (rom_total_banks S) name)).1 == 3) = false := rfl
    rw [hcond]
    simp only [Bool.false_eq_true, if_false]
    apply List.filter_eq_self.mpr
    intro t ht
    obtain ⟨bc, _, rfl⟩ := List.mem_map.mp ht
    rfl
  have htx : tx_data (chunk_txs (upload_rom f S name dev r0).2 3) =
      ((List.range (rom_total_banks S * 512)).map
        (fun k => chunk_data f S (k * 32))).flatten := by
    rw [hct, tx_data, List.map_map]
    rw [show ((fun (t : Nat × List Nat) => t.2.drop 4) ∘
        (fun bc : Nat × Nat => ((3 : Nat), rom_chunk_payload f S bc.1 bc.2))) =
        (fun bc : Nat × Nat => chunk_data f S (bc.1 * 16384 + bc.2 * 32)) from by
      funext bc
      exact rom_chunk_payload_drop4 f S bc.1 bc.2]
    rw [addr_list_eq_range (rom_total_banks S) 512 (by omega), List.map_map]
    rw [show ((fun bc : Nat × Nat => chunk_data f S (bc.1 * 16384 + bc.2 * 32)) ∘
        (fun k => (k / 512, k % 512))) = (fun k => chunk_data f S (k * 32)) from by
      funext k
      show chunk_data f S (k / 512 * 16384 + k % 512 * 32) =
        chunk_data f S (k * 32)
      congr 1
      omega]
  have hlen32 : ∀ k, ((fun k => chunk_data f S (k * 32)) k).length = 32 :=
    fun k => chunk_data_length f S (k * 32)
  have hlen : (tx_data (chunk_txs (upload_rom f S name dev r0).2 3)).length =
      rom_total_banks S * 512 * 32 := by
    rw [htx]
    exact flatten_map_range_length (rom_total_banks S * 512) _ hlen32
  have hbyte : ∀ o, o < rom_total_banks S * 512 * 32 →
      (tx_data (chunk_txs (upload_rom f S name dev r0).2 3)).getD o 0 =
        if o < S then f o else 0 := by
    intro o ho
    rw [htx, flatten_map_range_getD _ hlen32 (rom_total_banks S * 512) o ho]
    rw [chunk_data_getD f S (o / 32 * 32) (o % 32) (by omega)]
    have hrec : o / 32 * 32 + o % 32 = o := by omega
    rw [hrec]
  refine ⟨hB, htr, ?_, ?_, ?_⟩
  · rw [hlen, hB]
    ring
  · intro o ho
    exact hbyte o (by rw [hB]; omega)
  · intro hS
    subst hS
    refine ⟨by omega, ?_⟩
    intro o h1 h2
    rw [hbyte (16384 + o) (by rw [hB]; omega)]
    rw [if_neg (by omega)]

/-- Counterexample to C2 as stated for arbitrary sizes: for a file of
exactly 2^30 bytes the true bank count ceil(S/16384) is 65536, but the
`uint16_t` cast truncates it to 0, so a (successful) upload issues no
chunk transaction at all instead of 65536 banks. -/
theorem upload_rom_uint16_truncation_counterexample :
    rom_total_banks 1073741824 = 0 ∧
    (1073741824 + 16384 - 1) / 16384 = 65536 ∧
    (upload_rom (fun _ => 0) 1073741824 []
        (fun _ => ⟨true, some [2, 0]⟩) 0).1 = true ∧
    (chunk_txs (upload_rom (fun _ => 0) 1073741824 []
        (fun _ => ⟨true, some [2, 0]⟩) 0).2 3).length = 0 := by
  decide

/-- Witness for the amended C2, at the smallest in-range size 0 (the
hypotheses are discharged concretely; the conclusion is the instantiated
round-trip property). -/
theorem upload_rom_round_trip_witness :
    (0 + 16384 - 1) / 16384 < 65536 ∧
    (upload_rom (fun _ => 0) 0 [] (fun _ => ⟨true, some [2, 0]⟩) 0).1 = true ∧
    (rom_total_banks 0 = (0 + 16384 - 1) / 16384 ∧
      (upload_rom (fun _ => 0) 0 [] (fun _ => ⟨true, some [2, 0]⟩) 0).2 =
        (2, rom_handshake_payload (rom_total_banks 0) []) ::
          (addr_list (rom_total_banks 0) 512).map
            (fun bc => (3, rom_chunk_payload (fun _ => 0) 0 bc.1 bc.2)) ∧
      (tx_data (chunk_txs (upload_rom (fun _ => 0) 0 []
          (fun _ => ⟨true, some [2, 0]⟩) 0).2 3)).length =
        ((0 + 16384 - 1) / 16384) * 16384 ∧
      (∀ o, o < ((0 + 16384 - 1) / 16384) * 16384 →
        (tx_data (chunk_txs (upload_rom (fun _ => 0) 0 []
            (fun _ => ⟨true, some [2, 0]⟩) 0).2 3)).getD o 0 =
          if o < 0 then (fun _ => 0 : Nat → Nat) o else 0) ∧
      ((0 : Nat) = 20000 →
        (0 + 16384 - 1) / 16384 = 2 ∧
        ∀ o, 3616 ≤ o → o < 16384 →
          (tx_data (chunk_txs (upload_rom (fun _ => 0) 0 []
              (fun _ => ⟨true, some [2, 0]⟩) 0).2 3)).getD
            (16384 + o) 0 = 0)) :=
  ⟨by decide, by decide,
    upload_rom_round_trip (fun _ => 0) 0 [] (fun _ => ⟨true, some [2, 0]⟩) 0
      (by decide) (by decide)⟩

/-! ## Save upload (`upload_save`, opcodes 0x08/0x09) -/

/-- `upload_save` (lines 549-613) over a save file with contents `f` and
size `S`, targeting `rom_id` with `n = num_ram_banks` RAM banks: an
opcode 0x08 handshake carrying the rom id (1-byte status; failure or
non-zero status rejects), then 256 chunks per bank for all `n` banks,
read sequentially from the file (`r0` as in `upload_rom`).  The loop
bound comes from `num_ram_banks` alone: the file size never changes how
many chunks are sent. -/
def upload_save (f : Nat → Nat) (S rom_id n : Nat) (dev : Nat → DevStep)
    (r0 : Nat) : Bool × List (Nat × List Nat) :=
  match (execute_command 8 [rom_id] 1 (dev 0)).1 with
  | .ok d =>
    if d.headD r0 ≠ 0 then (false, [(8, [rom_id])])
    else
      let r := send_chunks 9 (save_chunk_payload f S) dev 1 (d.headD r0)
        (addr_list n 256)
      (r.1, (8, [rom_id]) :: r.2)
  | _ => (false, [(8, [rom_id])])

/-- A successful save upload issued the handshake followed by one opcode
0x09 chunk transaction per (bank, chunk) address in nested order. -/
theorem upload_save_ok_trace (f : Nat → Nat) (S rom_id n : Nat)
    (dev : Nat → DevStep) (r0 : Nat)
    (hok : (upload_save f S rom_id n dev r0).1 = true) :
    (upload_save f S rom_id n dev r0).2 =
      (8, [rom_id]) :: (addr_list n 256).map
        (fun bc => (9, save_chunk_payload f S bc.1 bc.2)) := by
  cases hx : (execute_command 8 [rom_id] 1 (dev 0)).1 with
  | ok d =>
    by_cases hz : d.headD r0 ≠ 0
    · rw [show upload_save f S rom_id n dev r0 = (false, [(8, [rom_id])]) from by
        simp only [upload_save, hx, if_pos hz]] at hok
      simp at hok
    · have hred : upload_save f S rom_id n dev r0 =
          ((send_chunks 9 (save_chunk_payload f S) dev 1 (d.headD r0)
              (addr_list n 256)).1,
            (8, [rom_id]) ::
              (send_chunks 9 (save_chunk_payload f S) dev 1 (d.headD r0)
                (addr_list n 256)).2) := by
        simp only [upload_save, hx, if_neg hz]
      rw [hred] at hok ⊢
      rw [send_chunks_ok_trace 9 (save_chunk_payload f S) dev
        (addr_list n 256) 1 (d.headD r0) hok]
  | frameTooLarge =>
    rw [show upload_save f S rom_id n dev r0 = (false, [(8, [rom_id])]) from by
      simp only [upload_save, hx]] at hok
    simp at hok
  | sendError =>
    rw [show upload_save f S rom_id n dev r0 = (false, [(8, [rom_id])]) from by
      simp only [upload_save, hx]] at hok
    simp at hok
  | recvError =>
    rw [show upload_save f S rom_id n dev r0 = (false, [(8, [rom_id])]) from by
      simp only [upload_save, hx]] at hok
    simp at hok
  | noResponse =>
    rw [show upload_save f S rom_id n dev r0 = (false, [(8, [rom_id])]) from by
      simp only [upload_save, hx]] at hok
    simp at hok
  | echoMismatch e r =>
    rw [show upload_save f S rom_id n dev r0 = (false, [(8, [rom_id])]) from by
      simp only [upload_save, hx]] at hok
    simp at hok

/-- Claim C10: a successful save upload of `n` RAM banks transmits
exactly `n * 8192` data bytes regardless of the file size `S`: byte `o`
of the concatenated chunk data is the file byte for `o < S` and zero
padding for `S ≤ o < n * 8192`, and file bytes at offsets
`n * 8192` and beyond are never sent (the transmitted stream is fully
determined by, and exactly covers, offsets below `n * 8192`). -/
theorem upload_save_sends_exactly (f : Nat → Nat) (S rom_id n : Nat)
    (dev : Nat → DevStep) (r0 : Nat)
    (hok : (upload_save f S rom_id n dev r0).1 = true) :
    (upload_save f S rom_id n dev r0).2 =
      (8, [rom_id]) :: (addr_list n 256).map
        (fun bc => (9, save_chunk_payload f S bc.1 bc.2)) ∧
    (tx_data (chunk_txs (upload_save f S rom_id n dev r0).2 9)).length =
      n * 8192 ∧
    (∀ o, o < n * 8192 →
      (tx_data (chunk_txs (upload_save f S rom_id n dev r0).2 9)).getD o 0 =
        if o < S then f o else 0) := by
  have htr := upload_save_ok_trace f S rom_id n dev r0 hok
  have hct : chunk_txs (upload_save f S rom_id n dev r0).2 9 =
      (addr_list n 256).map
        (fun bc => (9, save_chunk_payload f S bc.1 bc.2)) := by
    rw [htr, chunk_txs, List.filter_cons]
    have hcond : ((((8 : Nat), [rom_id])).1 == 9) = false := rfl
    rw [hcond]
    simp only [Bool.false_eq_true, if_false]
    apply List.filter_eq_self.mpr
    intro t ht
    obtain ⟨bc, _, rfl⟩ := List.mem_map.mp ht
    rfl
  have htx : tx_data (chunk_txs (upload_save f S rom_id n dev r0).2 9) =
      ((List.range (n * 256)).map (fun k => chunk_data f S (k * 32))).flatten := by
    rw [hct, tx_data, List.map_map]
    rw [show ((fun (t : Nat × List Nat) => t.2.drop 4) ∘
        (fun bc : Nat × Nat => ((9 : Nat), save_chunk_payload f S bc.1 bc.2))) =
        (fun bc : Nat × Nat => chunk_data f S (bc.1 * 8192 + bc.2 * 32)) from by
      funext bc
      exact save_chunk_payload_drop4 f S bc.1 bc.2]
    rw [addr_list_eq_range n 256 (by omega), List.map_map]
    rw [show ((fun bc : Nat × Nat => chunk_data f S (bc.1 * 8192 + bc.2 * 32)) ∘
        (fun k => (k / 256, k % 256))) = (fun k => chunk_data f S (k * 32)) from by
      funext k
      show chunk_data f S (k / 256 * 8192 + k % 256 * 32) =
        chunk_data f S (k * 32)
      congr 1
      omega]
  have hlen32 : ∀ k, ((fun k => chunk_data f S (k * 32)) k).length = 32 :=
    fun k => chunk_data_length f S (k * 32)
  refine ⟨htr, ?_, ?_⟩
  · rw [htx, flatten_map_range_length (n * 256) _ hlen32]
    omega
  · intro o ho
    rw [htx, flatten_map_range_getD _ hlen32 (n * 256) o (by omega)]
    rw [chunk_data_getD f S (o / 32 * 32) (o % 32) (by omega)]
    have hrec : o / 32 * 32 + o % 32 = o := by omega
    rw [hrec]

/-- Device oracle for the C10 witness: status-0 ack for the opcode 0x08
handshake and every opcode 0x09 chunk. -/
def c10dev : Nat → DevStep := fun k =>
  if k = 0 then ⟨true, some [8, 0]⟩ else ⟨true, some [9, 0]⟩

/-- Witness for C10: one RAM bank uploaded from an empty (size 0) file
transmits exactly 8192 zero bytes. -/
theorem upload_save_sends_exactly_witness :
    (upload_save (fun _ => 0) 0 5 1 c10dev 0).1 = true ∧
    ((upload_save (fun _ => 0) 0 5 1 c10dev 0).2 =
      (8, [5]) :: (addr_list 1 256).map
        (fun bc => (9, save_chunk_payload (fun _ => 0) 0 bc.1 bc.2)) ∧
    (tx_data (chunk_txs (upload_save (fun _ => 0) 0 5 1 c10dev 0).2 9)).length =
      1 * 8192 ∧
    (∀ o, o < 1 * 8192 →
      (tx_data (chunk_txs (upload_save (fun _ => 0) 0 5 1 c10dev 0).2 9)).getD
          o 0 =
        if o < 0 then (fun _ => 0 : Nat → Nat) o else 0)) :=
  ⟨by decide, upload_save_sends_exactly (fun _ => 0) 0 5 1 c10dev 0 (by decide)⟩

/-! ## Save download (`download_save`, opcodes 0x06/0x07) -/

/-- Outcome of a save download: success, handshake rejection, a short or
failed chunk read, or the synchronization error carrying the expected and
received (bank, chunk) addresses. -/
inductive DlResult where
  | ok
  | rejected
  | readError (b c : Nat)
  | syncError (eb ec rb rc : Nat)
deriving DecidableEq

/-- The data bytes of the opcode 0x07 chunk transaction numbered `k`
(empty when the transaction fails). -/
def chunk_resp_data (dev : Nat → DevStep) (k : Nat) : List Nat :=
  match (execute_command 7 [] 36 (dev k)).1 with
  | .ok d => d
  | _ => []

/-- Chunk transaction `k` succeeded with a full 36-byte response. -/
def chunk_ok (dev : Nat → DevStep) (k : Nat) : Prop :=
  (execute_command 7 [] 36 (dev k)).1 = .ok (chunk_resp_data dev k) ∧
    36 ≤ (chunk_resp_data dev k).length

/-- The (bank, chunk) address echoed by chunk transaction `k`: big-endian
16-bit values in response bytes 0-1 and 2-3 (lines 521-522). -/
def chunk_addr (dev : Nat → DevStep) (k : Nat) : Nat × Nat :=
  ((chunk_resp_data dev k).getD 0 0 <<< 8 ||| (chunk_resp_data dev k).getD 1 0,
    (chunk_resp_data dev k).getD 2 0 <<< 8 ||| (chunk_resp_data dev k).getD 3 0)

/-- The chunk-receiving loop of `download_save` (lines 508-539): for each
expected (bank, chunk) address in nested order, one opcode 0x07
transaction with capacity 36; fewer than 36 data bytes is a read error;
an echoed address different from the expected one is the fatal
synchronization error, reported with both addresses and with nothing of
that chunk written; otherwise the 32 data bytes are appended to the file
and the loop continues. -/
def recv_chunks (dev : Nat → DevStep) : Nat → List (Nat × Nat) →
    DlResult × List Nat
  | _, [] => (.ok, [])
  | k, (b, c) :: rest =>
    match (execute_command 7 [] 36 (dev k)).1 with
    | .ok data =>
      if data.length < 36 then (.readError b c, [])
      else
        let rb := data.getD 0 0 <<< 8 ||| data.getD 1 0
        let rc := data.getD 2 0 <<< 8 ||| data.getD 3 0
        if rb ≠ b ∨ rc ≠ c then (.syncError b c rb rc, [])
        else
          let r := recv_chunks dev (k + 1) rest
          (r.1, ((data.drop 4).take 32) ++ r.2)
    | _ => (.readError b c, [])

/-- `download_save` (lines 482-547): an opcode 0x06 handshake carrying the
rom id (1-byte status; failure or non-zero status rejects, `r0` as in
`upload_rom`), then `n = num_ram_banks` banks of 256 chunks received in
nested order.  The second component is the byte content written to the
destination file. -/
def download_save (dev : Nat → DevStep) (rom_id n r0 : Nat) :
    DlResult × List Nat :=
  match (execute_command 6 [rom_id] 1 (dev 0)).1 with
  | .ok d =>
    if d.headD r0 ≠ 0 then (.rejected, [])
    else recv_chunks dev 1 (addr_list n 256)
  | _ => (.rejected, [])

/-- Core induction for the synchronization check: if the first `j` chunk
responses are well-formed and carry exactly the expected addresses, and
response `j` is well-formed but carries a different address, the loop
stops with a `syncError` reporting the expected and received addresses,
and the file contains exactly the data of the first `j` chunks. -/
theorem recv_chunks_sync_spec (dev : Nat → DevStep) :
    ∀ (addrs : List (Nat × Nat)) (k0 j : Nat), j < addrs.length →
      (∀ i, i < j → chunk_ok dev (k0 + i) ∧
        chunk_addr dev (k0 + i) = addrs.getD i (0, 0)) →
      chunk_ok dev (k0 + j) →
      chunk_addr dev (k0 + j) ≠ addrs.getD j (0, 0) →
      recv_chunks dev k0 addrs =
        (.syncError (addrs.getD j (0, 0)).1 (addrs.getD j (0, 0)).2
            (chunk_addr dev (k0 + j)).1 (chunk_addr dev (k0 + j)).2,
          (List.range j).flatMap
            (fun i => ((chunk_resp_data dev (k0 + i)).drop 4).take 32)) := by
  intro addrs
  induction addrs with
  | nil =>
    intro k0 j hj _ _ _
    simp at hj
  | cons hd rest ih =>
    intro k0 j hj hgood hb1 hb2
    obtain ⟨b, c⟩ := hd
    cases j with
    | zero =>
      simp only [Nat.add_zero] at hb1 hb2
      simp only [List.getD_cons_zero] at hb2 ⊢
      obtain ⟨hdx, hlen⟩ := hb1
      have hnl : ¬(chunk_resp_data dev k0).length < 36 := by omega
      have hor : (chunk_resp_data dev k0).getD 0 0 <<< 8 |||
            (chunk_resp_data dev k0).getD 1 0 ≠ b ∨
          (chunk_resp_data dev k0).getD 2 0 <<< 8 |||
            (chunk_resp_data dev k0).getD 3 0 ≠ c := by
        by_contra hcon
        push_neg at hcon
        apply hb2
        simp only [chunk_addr]
        rw [hcon.1, hcon.2]
      simp only [recv_chunks, hdx, if_neg hnl, if_pos hor]
      simp only [chunk_addr, Nat.add_zero, List.range_zero, List.flatMap_nil]
    | succ jj =>
      obtain ⟨hok0, haddr0⟩ := hgood 0 (by omega)
      simp only [Nat.add_zero] at hok0 haddr0
      simp only [List.getD_cons_zero] at haddr0
      obtain ⟨hdx, hlen⟩ := hok0
      have hnl : ¬(chunk_resp_data dev k0).length < 36 := by omega
      have hx1 : (chunk_resp_data dev k0).getD 0 0 <<< 8 |||
          (chunk_resp_data dev k0).getD 1 0 = b := congrArg Prod.fst haddr0
      have hx2 : (chunk_resp_data dev k0).getD 2 0 <<< 8 |||
          (chunk_resp_data dev k0).getD 3 0 = c := congrArg Prod.snd haddr0
      have hcond : ¬((chunk_resp_data dev k0).getD 0 0 <<< 8 |||
            (chunk_resp_data dev k0).getD 1 0 ≠ b ∨
          (chunk_resp_data dev k0).getD 2 0 <<< 8 |||
            (chunk_resp_data dev k0).getD 3 0 ≠ c) := by
        rw [hx1, hx2]
        simp
      simp only [recv_chunks, hdx, if_neg hnl, if_neg hcond]
      have hih := ih (k0 + 1) jj (by simpa using hj)
        (fun i hi => by
          have hg := hgood (i + 1) (by omega)
          have heq : k0 + (i + 1) = k0 + 1 + i := by omega
          rw [heq] at hg
          simpa using hg)
        (by
          have heq : k0 + (jj + 1) = k0 + 1 + jj := by omega
          rw [heq] at hb1
          exact hb1)
        (by
          have heq : k0 + (jj + 1) = k0 + 1 + jj := by omega
          rw [heq] at hb2
          simpa using hb2)
      rw [hih]
      have heq : k0 + (jj + 1) = k0 + 1 + jj := by omega
      simp only [List.getD_cons_succ, heq]
      rw [List.range_succ_eq_map, List.flatMap_cons, List.flatMap_map]
      simp only [Nat.add_zero]
      rw [show (fun i => ((chunk_resp_data dev (k0 + (i + 1))).drop 4).take 32) =
          (fun i => ((chunk_resp_data dev (k0 + 1 + i)).drop 4).take 32) from
        funext fun i => by rw [show k0 + (i + 1) = k0 + 1 + i from by omega]]

/-- Claim C3: during a save download whose handshake succeeded, if the
first `j` chunk responses carry exactly the expected addresses and
response `j` carries a different (bank, chunk) address than the expected
next one, the transfer fails with a `syncError` reporting both the
expected and the received address, and the destination file holds exactly
the data of the `j` previously validated chunks — no byte of the
mismatching chunk.  The expected address for step `j` of the nested
iteration is `(j / 256, j % 256)`. -/
theorem download_save_sync (dev : Nat → DevStep) (rom_id n r0 j : Nat)
    (d0 : List Nat)
    (hhs : (execute_command 6 [rom_id] 1 (dev 0)).1 = .ok d0)
    (hst : d0.headD r0 = 0)
    (hj : j < n * 256)
    (hgood : ∀ i, i < j → chunk_ok dev (1 + i) ∧
      chunk_addr dev (1 + i) = (addr_list n 256).getD i (0, 0))
    (hb1 : chunk_ok dev (1 + j))
    (hb2 : chunk_addr dev (1 + j) ≠ (addr_list n 256).getD j (0, 0)) :
    download_save dev rom_id n r0 =
      (.syncError ((addr_list n 256).getD j (0, 0)).1
          ((addr_list n 256).getD j (0, 0)).2
          (chunk_addr dev (1 + j)).1 (chunk_addr dev (1 + j)).2,
        (List.range j).flatMap
          (fun i => ((chunk_resp_data dev (1 + i)).drop 4).take 32)) ∧
      (addr_list n 256).getD j (0, 0) = (j / 256, j % 256) := by
  have hlen : j < (addr_list n 256).length := by
    rw [addr_list_length n 256 (by omega)]
    omega
  have hmain := recv_chunks_sync_spec dev (addr_list n 256) 1 j hlen hgood hb1 hb2
  constructor
  · simp only [download_save, hhs]
    rw [if_neg (show ¬d0.headD r0 ≠ 0 from by omega)]
    exact hmain
  · rw [addr_list_eq_range n 256 (by omega)]
    rw [List.getD_eq_getElem?_getD, List.getElem?_map]
    rw [show (List.range (n * 256))[j]? = some j from by
      rw [List.getElem?_eq_getElem (by simpa using hj)]
      simp]
    rfl

/-- Device oracle for the C3 witness: handshake accepted, then a chunk
response addressed (bank 0, chunk 1) while (bank 0, chunk 0) is
expected. -/
def c3dev : Nat → DevStep := fun k =>
  if k = 0 then ⟨true, some [6, 0]⟩
  else ⟨true, some (7 :: 0 :: 0 :: 0 :: 1 :: List.replicate 32 5)⟩

/-- Witness for C3: the out-of-order first chunk aborts the download with
`syncError` (expected bank 0 chunk 0, received bank 0 chunk 1) and an
empty destination file. -/
theorem download_save_sync_witness :
    (execute_command 6 [3] 1 (c3dev 0)).1 = .ok [0] ∧
    ([0] : List Nat).headD 0 = 0 ∧
    (0 : Nat) < 1 * 256 ∧
    chunk_ok c3dev (1 + 0) ∧
    chunk_addr c3dev (1 + 0) ≠ (addr_list 1 256).getD 0 (0, 0) ∧
    (download_save c3dev 3 1 0 =
      (.syncError ((addr_list 1 256).getD 0 (0, 0)).1
          ((addr_list 1 256).getD 0 (0, 0)).2
          (chunk_addr c3dev (1 + 0)).1 (chunk_addr c3dev (1 + 0)).2,
        (List.range 0).flatMap
          (fun i => ((chunk_resp_data c3dev (1 + i)).drop 4).take 32)) ∧
      (addr_list 1 256).getD 0 (0, 0) = (0 / 256, 0 % 256)) :=
  ⟨by decide, by decide, by decide, by unfold chunk_ok; decide, by decide,
    download_save_sync c3dev 3 1 0 0 [0] (by decide) (by decide) (by decide)
      (fun i hi => absurd hi (by omega)) (by unfold chunk_ok; decide)
      (by decide)⟩

/-! ## Device info (`get_device_info`, opcodes 0xFE/0xFD) -/

/-- `get_device_info` (lines 323-370): a device-info transaction (opcode
0xFE, capacity 15) requiring at least 11 data bytes, then a serial-id
transaction (opcode 0xFD, capacity 10) whose 8 identifier bytes are shown
only when at least 8 bytes arrive.  Returns (overall success, the serial
field if any); the C function returns 0 exactly when the first query
succeeded, regardless of the serial query. -/
def get_device_info (dev : Nat → DevStep) : Bool × Option (List Nat) :=
  match (execute_command 254 [] 15 (dev 0)).1 with
  | .ok data =>
    if data.length < 11 then (false, none)
    else
      match (execute_command 253 [] 10 (dev 1)).1 with
      | .ok s => if 8 ≤ s.length then (true, some (s.take 8)) else (true, none)
      | _ => (true, none)
  | _ => (false, none)

/-- Claim C9: once the device-info query succeeds with at least 11 data
bytes, the operation reports success whatever the serial query does; a
failed or short (< 8 byte) serial query only omits the serial field. -/
theorem get_device_info_independent (dev : Nat → DevStep) (d : List Nat)
    (h1 : (execute_command 254 [] 15 (dev 0)).1 = .ok d)
    (h2 : 11 ≤ d.length) :
    (get_device_info dev).1 = true ∧
    ((∀ s, (execute_command 253 [] 10 (dev 1)).1 = .ok s → s.length < 8) →
      (get_device_info dev).2 = none) := by
  have hn : ¬d.length < 11 := by omega
  cases hs : (execute_command 253 [] 10 (dev 1)).1 with
  | ok s =>
    by_cases h8 : 8 ≤ s.length
    · constructor
      · simp only [get_device_info, h1, hs]
        rw [if_neg hn, if_pos h8]
      · intro hshort
        exact absurd (hshort s rfl) (by omega)
    · constructor
      · simp only [get_device_info, h1, hs]
        rw [if_neg hn, if_neg h8]
      · intro hshort
        simp only [get_device_info, h1, hs]
        rw [if_neg hn, if_neg h8]
  | frameTooLarge =>
    constructor
    · simp only [get_device_info, h1, hs]
      rw [if_neg hn]
    · intro hshort
      simp only [get_device_info, h1, hs]
      rw [if_neg hn]
  | sendError =>
    constructor
    · simp only [get_device_info, h1, hs]
      rw [if_neg hn]
    · intro hshort
      simp only [get_device_info, h1, hs]
      rw [if_neg hn]
  | recvError =>
    constructor
    · simp only [get_device_info, h1, hs]
      rw [if_neg hn]
    · intro hshort
      simp only [get_device_info, h1, hs]
      rw [if_neg hn]
  | noResponse =>
    constructor
    · simp only [get_device_info, h1, hs]
      rw [if_neg hn]
    · intro hshort
      simp only [get_device_info, h1, hs]
      rw [if_neg hn]
  | echoMismatch e r =>
    constructor
    · simp only [get_device_info, h1, hs]
      rw [if_neg hn]
    · intro hshort
      simp only [get_device_info, h1, hs]
      rw [if_neg hn]

/-- Device oracle for the C9 witness: an 11-byte device-info response and
a 1-byte (short) serial response. -/
def c9dev : Nat → DevStep := fun k =>
  if k = 0 then ⟨true, some (254 :: List.replicate 11 0)⟩
  else ⟨true, some [253, 1]⟩

/-- Witness for C9: with a short serial response the operation still
succeeds and merely omits the serial field. -/
theorem get_device_info_independent_witness :
    (execute_command 254 [] 15 (c9dev 0)).1 = .ok (List.replicate 11 0) ∧
    11 ≤ (List.replicate 11 (0 : Nat)).length ∧
    ((get_device_info c9dev).1 = true ∧
      ((∀ s, (execute_command 253 [] 10 (c9dev 1)).1 = .ok s → s.length < 8) →
        (get_device_info c9dev).2 = none)) :=
  ⟨by decide, by decide,
    get_device_info_independent c9dev (List.replicate 11 0) (by decide)
      (by decide)⟩

end Croco
